import Mathlib

/-!
# Verification of the button memory game (`js/script.js`, `lang/messages/en/user.js`)

Shallow embedding of the game: the message table and style configuration,
input validation (`Validator.checkInput`), button creation
(`ButtonManager.makeButton`) and the `GameManager` round flow
(`initGame`, `playGame`, `scrambleButtons`, `memoryTest`, `checkClick`).

Conventions of the embedding:

* A `GameButton`'s `textContent` field is the displayed label of its DOM
  element (`""` when the number is hidden).
* `listeners` counts the `click` listeners attached to the element with
  `addEventListener`; the only handler the source ever attaches is
  `() => checkClick(button)`.  `onclick` is the element's `onclick`
  property; the source only ever assigns `null` to it, and assigning
  `onclick = null` does **not** remove listeners attached with
  `addEventListener`, which the embedding reflects by leaving `listeners`
  untouched at those assignments.
* `Math.random()` draws are supplied by environments: `picks` for the
  color selection in `makeButton`, and a `ScrambleEnv` (which also carries
  the viewport and rendered button sizes) for the scramble coordinates.
* The script is a single-threaded cooperative state machine; the `await`ed
  pauses only order the steps, so state functions give the result of
  running a phase to completion, and the pauses themselves are recorded in
  an event trace (`GameManager.playGameTrace`).
-/

/-- Keys of the `MESSAGES` table in `lang/messages/en/user.js`. -/
inductive MsgKey
  | WIN
  | LOSE
  | START
  | WRONG_INPUT_TYPE
  | NOT_IN_RANGE
  | GAME_STARTED
  deriving DecidableEq

/-- The `MESSAGES` string table from `lang/messages/en/user.js`. -/
def MESSAGES : MsgKey → String
  | .WIN => "Excellent Memory!"
  | .LOSE => "Wrong Order!"
  | .START => "Scrambling buttons ...."
  | .WRONG_INPUT_TYPE => "Please ensure you enter a number from 3 to 7!"
  | .NOT_IN_RANGE => "Number is not in range, please enter a number from 3 to 7!"
  | .GAME_STARTED => "Guess the correct order of the buttons"

/-- `STYLE_CONFIG["BUTTON_COLORS"]`: the fixed palette of 7 colors. -/
def STYLE_CONFIG_BUTTON_COLORS : List String :=
  ["red", "blue", "green", "yellow", "orange", "lime", "pink"]

/-- `STYLE_CONFIG["EDGE_MARGIN"]`: the margin (in px) kept from the
viewport edge while scrambling. -/
def STYLE_CONFIG_EDGE_MARGIN : ℚ := 10

/-- The kind of JavaScript value `Validator.checkInput` can receive.  The
game always passes it `parseInt(input.value.trim())`, so in practice only
`nan` and `num` occur, but the source also guards against `null` and
`undefined`. -/
inductive JSVal
  | null
  | undef
  | nan
  | num (k : ℤ)
  deriving DecidableEq

/-- Numeric value of `c` as a base-16 digit, if it is one. -/
def hexDigitVal (c : Char) : Option Nat :=
  if '0' ≤ c ∧ c ≤ '9' then some (c.toNat - '0'.toNat)
  else if 'a' ≤ c ∧ c ≤ 'f' then some (c.toNat - 'a'.toNat + 10)
  else if 'A' ≤ c ∧ c ≤ 'F' then some (c.toNat - 'A'.toNat + 10)
  else none

/-- Numeric value of `c` as a digit in base `radix` (10 or 16 here). -/
def digitValIn (radix : Nat) (c : Char) : Option Nat :=
  match hexDigitVal c with
  | some v => if v < radix then some v else none
  | none => none

/-- Value of the longest leading run of base-`radix` digits; `none` when no
digit has been consumed. -/
def parseDigits (radix : Nat) : List Char → Option Nat → Option Nat
  | [], acc => acc
  | c :: rest, acc =>
    match digitValIn radix c with
    | some v => parseDigits radix rest (some (acc.getD 0 * radix + v))
    | none => acc

/-- JavaScript `String.prototype.trim()`: remove whitespace from both
ends of the string. -/
def jsTrim (s : String) : String :=
  ⟨((s.data.dropWhile Char.isWhitespace).reverse.dropWhile Char.isWhitespace).reverse⟩

/-- JavaScript `parseInt(s)` with no radix argument: skip leading
whitespace, read an optional sign, let a `0x`/`0X` marker select base 16
(base 10 otherwise), then take the value of the longest digit run; the
result is `NaN` when no digit is consumed. -/
def jsParseInt (s : String) : JSVal :=
  let cs := s.toList.dropWhile Char.isWhitespace
  let signAndRest : ℤ × List Char :=
    match cs with
    | '+' :: rest => (1, rest)
    | '-' :: rest => (-1, rest)
    | _ => (1, cs)
  let radixAndDigits : Nat × List Char :=
    match signAndRest.2 with
    | '0' :: 'x' :: rest => (16, rest)
    | '0' :: 'X' :: rest => (16, rest)
    | _ => (10, signAndRest.2)
  match parseDigits radixAndDigits.1 radixAndDigits.2 none with
  | some n => JSVal.num (signAndRest.1 * n)
  | none => JSVal.nan

/-- `Validator.checkInput(input)`: rejects `null`, `undefined` and `NaN`
with the WRONG_INPUT_TYPE message, rejects numbers outside `[3, 7]` with
the NOT_IN_RANGE message, and accepts everything else.  The message
display side effect is modelled by returning the new contents of the
message area alongside the boolean; the function is total (it never
throws). -/
def Validator.checkInput (input : JSVal) (messageArea : String) : Bool × String :=
  match input with
  | .null => (false, MESSAGES .WRONG_INPUT_TYPE)
  | .undef => (false, MESSAGES .WRONG_INPUT_TYPE)
  | .nan => (false, MESSAGES .WRONG_INPUT_TYPE)
  | .num k => if k < 3 ∨ 7 < k then (false, MESSAGES .NOT_IN_RANGE) else (true, messageArea)

/-- One game button: `id` and `color` are the `GameButton` fields of the
source, the remaining fields model its DOM element (displayed label,
absolute position if one has been set, attached `click` listeners, and the
`onclick` property, which the source only ever sets to `null`). -/
structure GameButton where
  id : Nat
  color : String
  textContent : String
  pos : Option (ℚ × ℚ)
  listeners : Nat
  onclick : Option Unit
  deriving DecidableEq

/-- `new GameButton(id, color, container)`: a fresh `<button>` element with
no text, no absolute position and no click handlers. -/
def GameButton.make (id : Nat) (color : String) : GameButton :=
  { id := id, color := color, textContent := "", pos := none, listeners := 0, onclick := none }

/-- `GameButton.showNumber()`: display `id + 1` on the button. -/
def GameButton.showNumber (b : GameButton) : GameButton :=
  { b with textContent := toString (b.id + 1) }

/-- `GameButton.hideNumber()`: blank the button's label. -/
def GameButton.hideNumber (b : GameButton) : GameButton :=
  { b with textContent := "" }

/-- `GameButton.setLocation(x, y)`: absolutely position the button. -/
def GameButton.setLocation (b : GameButton) (x y : ℚ) : GameButton :=
  { b with pos := some (x, y) }

/-- Loop body of `ButtonManager.makeButton`: `i` is the loop counter (also
the new button's id), the second argument the remaining iteration count,
`avail` the `availableColors` array and `btns` the `buttons` array built so
far.  `picks i % avail.length` models
`Math.floor(Math.random() * availableColors.length)`, a draw from
`[0, availableColors.length)`; the chosen color is spliced out so colors
are not repeated.  The source pushes the button and then calls
`showNumber()` on the pushed object, so the stored button is shown. -/
def makeButtonLoop (picks : Nat → Nat) :
    Nat → Nat → List String → List GameButton → List GameButton
  | _, 0, _, btns => btns
  | i, count + 1, avail, btns =>
    let randomIdx := picks i % avail.length
    let btnColor := (avail.get? randomIdx).getD "undefined"
    let avail' := avail.eraseIdx randomIdx
    let newButton := GameButton.make i btnColor
    makeButtonLoop picks (i + 1) count avail' (btns ++ [newButton.showNumber])

/-- `ButtonManager.makeButton(btnNum)`: create `btnNum` buttons with
pairwise distinct random colors, appending them to the current `buttons`
array. -/
def ButtonManager.makeButton (picks : Nat → Nat) (btnNum : Nat)
    (buttons : List GameButton) : List GameButton :=
  makeButtonLoop picks 0 btnNum STYLE_CONFIG_BUTTON_COLORS buttons

/-- The `GameManager` round state: the `buttons` array of the
`ButtonManager`, the message area contents, `this.ogOrder`,
`this.clickedOrder` and `this.gameInProgress`. -/
structure GameState where
  buttons : List GameButton
  message : String
  ogOrder : List Nat
  clickedOrder : List Nat
  gameInProgress : Bool
  deriving DecidableEq

/-- The `GameManager` fields right after its constructor runs: empty
button array, empty message area, empty orders, no game in progress. -/
def GameState.initial : GameState :=
  { buttons := [], message := "", ogOrder := [], clickedOrder := [],
    gameInProgress := false }

/-- `GameManager.checkClick(button)` for a click on the button with id
`btnId`.  `expected` is `this.ogOrder[this.clickedOrder.length]`; `none`
models JavaScript `undefined` when the index is out of range, and
`button.id === undefined` is false for the numeric `button.id`.  In every
reachable state button ids are pairwise distinct, so the map in the
matching branch shows exactly the clicked button.  The losing branch shows
every number and then assigns `onclick = null` to every button's element;
this does not remove the `addEventListener` handlers, so `listeners` is
unchanged there. -/
def GameManager.checkClick (st : GameState) (btnId : Nat) : GameState :=
  let expected := st.ogOrder.get? st.clickedOrder.length
  if some btnId = expected then
    let st1 : GameState := { st with
      buttons := st.buttons.map fun b => if b.id = btnId then b.showNumber else b,
      clickedOrder := st.clickedOrder ++ [btnId] }
    if st1.clickedOrder.length = st1.ogOrder.length then
      { st1 with message := MESSAGES .WIN }
    else st1
  else
    { st with
      message := MESSAGES .LOSE,
      buttons := (st.buttons.map GameButton.showNumber).map
        fun b => { b with onclick := none } }

/-- Apply `f` to `a`, `n` times. -/
def applyN {α : Type} (f : α → α) : Nat → α → α
  | 0, a => a
  | n + 1, a => applyN f n (f a)

/-- A user click on the button with id `btnId`: the DOM fires each of the
element's `addEventListener` handlers once (each is
`() => checkClick(button)` here); the `onclick` property never holds a
handler because the source only ever assigns `null` to it.  A click on an
id that no current button carries dispatches to nothing. -/
def GameManager.dispatchClick (st : GameState) (btnId : Nat) : GameState :=
  match st.buttons.find? fun b => b.id = btnId with
  | none => st
  | some b => applyN (fun s => GameManager.checkClick s btnId) b.listeners st

/-- A sequence of user clicks, given by button id, performed left to
right. -/
def GameManager.clickSeq (ids : List Nat) (st : GameState) : GameState :=
  ids.foldl GameManager.dispatchClick st

/-- `GameManager.memoryTest()`: display the GAME_STARTED message and, for
every button, assign `onclick = null` (which does not touch the listener
list) and then `addEventListener("click", () => checkClick(button))`. -/
def GameManager.memoryTest (st : GameState) : GameState :=
  { st with
    message := MESSAGES .GAME_STARTED,
    buttons := st.buttons.map fun b =>
      { b with onclick := none, listeners := b.listeners + 1 } }

/-- Browser-supplied quantities read by `GameManager.scrambleButtons`: the
viewport size (`window.innerWidth` / `window.innerHeight`), the rendered
button size (`buttons[0].offsetWidth` / `buttons[0].offsetHeight`), and
the `Math.random()` draws — `randX i j` / `randY i j` are the draws made
for button number `j` during scramble iteration `i`. -/
structure ScrambleEnv where
  innerWidth : ℚ
  innerHeight : ℚ
  btnWidth : ℚ
  btnHeight : ℚ
  randX : Nat → Nat → ℚ
  randY : Nat → Nat → ℚ

/-- The `(x, y)` computed for button `j` in scramble iteration `i`:
`margin + Math.random() * (max - margin)` on each axis, with
`max = viewportDimension - buttonDimension - margin`. -/
def scrambleCoords (env : ScrambleEnv) (i j : Nat) : ℚ × ℚ :=
  let margin := STYLE_CONFIG_EDGE_MARGIN
  let maxX := env.innerWidth - env.btnWidth - margin
  let maxY := env.innerHeight - env.btnHeight - margin
  (margin + env.randX i j * (maxX - margin),
   margin + env.randY i j * (maxY - margin))

/-- The `buttons.forEach(button => { ...; button.setLocation(x, y); })`
pass of scramble iteration `i`; `j` numbers the buttons so that each gets
its own fresh random draws. -/
def setLocations (env : ScrambleEnv) (i : Nat) : Nat → List GameButton → List GameButton
  | _, [] => []
  | j, b :: rest =>
    b.setLocation (scrambleCoords env i j).1 (scrambleCoords env i j).2 ::
      setLocations env i (j + 1) rest

/-- State effect of the `for` loop of `GameManager.scrambleButtons` (`i`
the loop counter, the second argument the remaining iteration count); the
`await this.pause(2000)` of each iteration appears in the event trace. -/
def scrambleLoop (env : ScrambleEnv) : Nat → Nat → GameState → GameState
  | _, 0, st => st
  | i, t + 1, st =>
    scrambleLoop env (i + 1) t { st with buttons := setLocations env i 0 st.buttons }

/-- State effect of `GameManager.scrambleButtons(times)` run to
completion. -/
def GameManager.scrambleButtons (env : ScrambleEnv) (times : Nat) (st : GameState) :
    GameState :=
  scrambleLoop env 0 times st

/-- State effect of `GameManager.playGame(userValue)` run to completion:
record `ogOrder` from the current buttons, reset `clickedOrder`, pause
`userValue` seconds (trace only), hide every number, scramble `userValue`
times, then `memoryTest()`. -/
def GameManager.playGame (env : ScrambleEnv) (userValue : Nat) (st : GameState) :
    GameState :=
  let st1 := { st with ogOrder := st.buttons.map GameButton.id, clickedOrder := [] }
  let st2 := { st1 with buttons := st1.buttons.map GameButton.hideNumber }
  GameManager.memoryTest (GameManager.scrambleButtons env userValue st2)

/-- The count `makeButton` receives on the valid path (`toNat` is faithful
there: the validated value lies in `[3, 7]`). -/
def JSVal.toCount : JSVal → Nat
  | .num k => k.toNat
  | _ => 0

/-- The branch of `GameManager.initGame` taken once `checkInput` has
succeeded on the value `n`: create the buttons, display the START message,
set `gameInProgress`, and run `playGame(n)` to completion.  The resulting
state is the round state at the start of the recall phase. -/
def GameManager.startRound (picks : Nat → Nat) (env : ScrambleEnv) (n : Nat)
    (st : GameState) : GameState :=
  GameManager.playGame env n
    { st with
      buttons := ButtonManager.makeButton picks n st.buttons,
      message := MESSAGES .START,
      gameInProgress := true }

/-- `GameManager.initGame()` with the text `rawInput` in the input field,
run to completion: if a game is in progress, clear the buttons, the
message and both recorded orders and reset `gameInProgress`; then compute
`parseInt(this.userInput.value.trim())`, validate it (which displays a
message on failure), and on success start the round. -/
def GameManager.initGame (picks : Nat → Nat) (env : ScrambleEnv) (rawInput : String)
    (st : GameState) : GameState :=
  let st1 : GameState :=
    if st.gameInProgress then
      { st with
        buttons := [], message := "", ogOrder := [], clickedOrder := [],
        gameInProgress := false }
    else st
  let userValue := jsParseInt (jsTrim rawInput)
  let checked := Validator.checkInput userValue st1.message
  let st2 := { st1 with message := checked.2 }
  if checked.1 then GameManager.startRound picks env userValue.toCount st2 else st2

/-- Observable timed/ordering events of a round, used to state the
scrambling contract: the `await this.pause(ms)` suspensions, the
`hideNumber` and `setLocation` calls, message displays, and the point at
which `memoryTest` attaches the recall click handlers. -/
inductive Event
  | pauseMs (ms : Nat)
  | hideNumber (btnId : Nat)
  | setLocation (btnId : Nat) (x y : ℚ)
  | showMessage (text : String)
  | attachHandlers
  deriving DecidableEq

/-- Does the event record one of the fixed 2-second pauses that follow
each scramble pass? -/
def Event.isScramblePause : Event → Bool
  | .pauseMs ms => ms == 2000
  | _ => false

/-- Events of the `forEach` repositioning pass of scramble iteration `i`
(one `setLocation` per button, in array order). -/
def setLocationEvents (env : ScrambleEnv) (i : Nat) : Nat → List GameButton → List Event
  | _, [] => []
  | j, b :: rest =>
    Event.setLocation b.id (scrambleCoords env i j).1 (scrambleCoords env i j).2 ::
      setLocationEvents env i (j + 1) rest

/-- Event trace of the `for` loop of `GameManager.scrambleButtons`: each
iteration repositions every button and then pauses 2000 ms.  Button ids
never change during the loop, so the initial `bs` describes every pass. -/
def scrambleTraceLoop (env : ScrambleEnv) (bs : List GameButton) : Nat → Nat → List Event
  | _, 0 => []
  | i, t + 1 =>
    setLocationEvents env i 0 bs ++
      Event.pauseMs 2000 :: scrambleTraceLoop env bs (i + 1) t

/-- Events of `buttons.forEach(button => button.hideNumber())`. -/
def hideNumberEvents (bs : List GameButton) : List Event :=
  bs.map fun b => Event.hideNumber b.id

/-- Event trace of `GameManager.playGame(userValue)`: pause `userValue`
seconds, hide all numbers, run the scramble loop, then `memoryTest` —
display the GAME_STARTED message and attach the recall click handlers. -/
def GameManager.playGameTrace (env : ScrambleEnv) (userValue : Nat) (st : GameState) :
    List Event :=
  Event.pauseMs (userValue * 1000) ::
    hideNumberEvents st.buttons ++
      scrambleTraceLoop env st.buttons 0 userValue ++
        [Event.showMessage (MESSAGES .GAME_STARTED), Event.attachHandlers]

/-- A fixed stream of random color draws (always the first remaining
color), used for concrete round evaluations. -/
def picks0 : Nat → Nat := fun _ => 0

/-- A concrete browser environment: a 1000x800 viewport, 160x80 rendered
buttons, and `Math.random()` always returning 0. -/
def env0 : ScrambleEnv :=
  { innerWidth := 1000, innerHeight := 800, btnWidth := 160, btnHeight := 80,
    randX := fun _ _ => 0, randY := fun _ _ => 0 }

/-- A concrete browser environment whose viewport (100x100) is smaller
than the rendered 160x80 buttons plus margins, with `Math.random()`
always returning 1/2. -/
def envTiny : ScrambleEnv :=
  { innerWidth := 100, innerHeight := 100, btnWidth := 160, btnHeight := 80,
    randX := fun _ _ => 1 / 2, randY := fun _ _ => 1 / 2 }

/-- Invariant of a recall-phase round of `n` buttons after `k` correct
clicks: `ogOrder` is `0..n-1`, `clickedOrder` is the already-clicked
`0..k-1` (a front segment of `ogOrder`), the buttons carry ids `0..n-1`
in array order, each button's element has exactly one click listener, and
every already-clicked button shows its number. -/
def RecallInv (n k : Nat) (st : GameState) : Prop :=
  st.ogOrder = List.range n
  ∧ st.clickedOrder = List.range k
  ∧ st.buttons.map GameButton.id = List.range n
  ∧ (∀ b ∈ st.buttons, b.listeners = 1)
  ∧ (∀ b ∈ st.buttons, b.id < k → b.textContent = toString (b.id + 1))

/-- Appending to the accumulator of `makeButtonLoop` commutes with the
loop. -/
theorem makeButtonLoop_append (picks : Nat → Nat) (c : Nat) :
    ∀ (i : Nat) (avail : List String) (btns₁ btns₂ : List GameButton),
      makeButtonLoop picks i c avail (btns₁ ++ btns₂) =
        btns₁ ++ makeButtonLoop picks i c avail btns₂ := by
  induction c with
  | zero => intro i avail btns₁ btns₂; rfl
  | succ c ih =>
    intro i avail btns₁ btns₂
    simp only [makeButtonLoop]
    rw [List.append_assoc]
    exact ih (i + 1) _ btns₁ _

/-- One unfolding of `makeButtonLoop` into cons form. -/
theorem makeButtonLoop_cons (picks : Nat → Nat) (i c : Nat) (avail : List String) :
    makeButtonLoop picks i (c + 1) avail [] =
      (GameButton.make i ((avail.get? (picks i % avail.length)).getD "undefined")).showNumber ::
        makeButtonLoop picks (i + 1) c (avail.eraseIdx (picks i % avail.length)) [] := by
  have h1 := makeButtonLoop_append picks c (i + 1) (avail.eraseIdx (picks i % avail.length))
    [(GameButton.make i ((avail.get? (picks i % avail.length)).getD "undefined")).showNumber] []
  simp only [List.append_nil] at h1
  simp only [makeButtonLoop, List.nil_append]
  exact h1

/-- In a duplicate-free list, the element at index `i` does not survive
the removal of index `i`. -/
theorem getElem_not_mem_eraseIdx {α : Type} (l : List α) :
    ∀ (i : Nat) (hi : i < l.length), l.Nodup → l[i] ∉ l.eraseIdx i := by
  induction l with
  | nil => intro i hi; simp at hi
  | cons a t ih =>
    intro i hi hnd
    have hnd' := List.nodup_cons.mp hnd
    rcases i with _ | i
    · simpa using hnd'.1
    · have hi' : i < t.length := by simpa using hi
      have hmem : t[i] ∈ t := List.getElem_mem hi'
      have hne : t[i] ≠ a := fun h => hnd'.1 (h ▸ hmem)
      simp only [List.eraseIdx_cons_succ, List.getElem_cons_succ, List.mem_cons]
      push_neg
      exact ⟨hne, ih i hi' hnd'.2⟩

/-- Invariants of `makeButtonLoop` on an empty accumulator: ids are
consecutive from `i`, colors are drawn without replacement from `avail`
(hence pairwise distinct), and each new button is shown with no handlers
and no position. -/
theorem makeButtonLoop_spec (picks : Nat → Nat) (c : Nat) :
    ∀ (i : Nat) (avail : List String), c ≤ avail.length → avail.Nodup →
      (makeButtonLoop picks i c avail []).map GameButton.id = List.range' i c
      ∧ ((makeButtonLoop picks i c avail []).map GameButton.color).Nodup
      ∧ (∀ b ∈ makeButtonLoop picks i c avail [], b.color ∈ avail)
      ∧ (∀ b ∈ makeButtonLoop picks i c avail [],
          b.textContent = toString (b.id + 1) ∧ b.listeners = 0 ∧ b.onclick = none) := by
  induction c with
  | zero =>
    intro i avail _ _
    simp [makeButtonLoop, List.range']
  | succ c ih =>
    intro i avail hle hnd
    have hpos : 0 < avail.length := lt_of_lt_of_le (Nat.succ_pos c) hle
    have hidx : picks i % avail.length < avail.length := Nat.mod_lt _ hpos
    have hlen' : c ≤ (avail.eraseIdx (picks i % avail.length)).length := by
      rw [List.length_eraseIdx, if_pos hidx]; omega
    obtain ⟨hids, hnodup, hmemav, hfields⟩ :=
      ih (i + 1) (avail.eraseIdx (picks i % avail.length)) hlen' (hnd.eraseIdx _)
    have hget : avail.get? (picks i % avail.length) = some avail[picks i % avail.length] := by
      rw [List.get?_eq_getElem?, List.getElem?_eq_getElem hidx]
    rw [makeButtonLoop_cons, hget]
    refine ⟨?_, ?_, ?_, ?_⟩
    · simp only [List.map_cons, hids, List.range'_succ]
      rfl
    · refine List.nodup_cons.mpr ⟨?_, hnodup⟩
      intro hmem
      obtain ⟨b, hb, hbc⟩ := List.mem_map.mp hmem
      simp only [GameButton.showNumber, GameButton.make, Option.getD_some] at hbc
      have : avail[picks i % avail.length] ∈ avail.eraseIdx (picks i % avail.length) :=
        hbc ▸ hmemav b hb
      exact getElem_not_mem_eraseIdx avail _ hidx hnd this
    · intro b hb
      rcases List.mem_cons.mp hb with rfl | hb'
      · simp only [GameButton.showNumber, GameButton.make, Option.getD_some]
        exact List.getElem_mem hidx
      · exact List.mem_of_mem_eraseIdx (hmemav b hb')
    · intro b hb
      rcases List.mem_cons.mp hb with rfl | hb'
      · exact ⟨rfl, rfl, rfl⟩
      · exact hfields b hb'

/-- `ButtonManager.makeButton` on an empty `buttons` array and `n ≤ 7`:
exactly `n` buttons, ids `0..n-1` in creation order, pairwise distinct
colors from the 7-color palette, every number shown, no handlers yet. -/
theorem ButtonManager.makeButton_spec (picks : Nat → Nat) (n : Nat) (h7 : n ≤ 7) :
    (ButtonManager.makeButton picks n []).length = n
    ∧ (ButtonManager.makeButton picks n []).map GameButton.id = List.range n
    ∧ ((ButtonManager.makeButton picks n []).map GameButton.color).Nodup
    ∧ (∀ b ∈ ButtonManager.makeButton picks n [], b.color ∈ STYLE_CONFIG_BUTTON_COLORS)
    ∧ (∀ b ∈ ButtonManager.makeButton picks n [],
        b.textContent = toString (b.id + 1) ∧ b.listeners = 0 ∧ b.onclick = none) := by
  have hlen : n ≤ STYLE_CONFIG_BUTTON_COLORS.length := by
    simpa [STYLE_CONFIG_BUTTON_COLORS] using h7
  have hnd : STYLE_CONFIG_BUTTON_COLORS.Nodup := by decide
  obtain ⟨hids, hnodup, hmem, hfields⟩ := makeButtonLoop_spec picks n 0 _ hlen hnd
  refine ⟨?_, ?_, hnodup, hmem, hfields⟩
  · have := congrArg List.length hids
    simpa [ButtonManager.makeButton] using this
  · simpa [ButtonManager.makeButton, List.range_eq_range'] using hids

/-- **C5**: for every valid `n` in `{3,4,5,6,7}` and every sequence of
random draws, `createButtons(n)` (`ButtonManager.makeButton`) yields
exactly `n` buttons whose ids are `0..n-1` in creation order, whose colors
are pairwise distinct (drawn without replacement from the fixed 7-color
palette), and each of whose numbers is visible immediately after
creation. -/
theorem claim_C5_createButtons (picks : Nat → Nat) (n : Nat) (_h3 : 3 ≤ n) (h7 : n ≤ 7) :
    (ButtonManager.makeButton picks n []).length = n
    ∧ (ButtonManager.makeButton picks n []).map GameButton.id = List.range n
    ∧ ((ButtonManager.makeButton picks n []).map GameButton.color).Nodup
    ∧ (∀ b ∈ ButtonManager.makeButton picks n [], b.color ∈ STYLE_CONFIG_BUTTON_COLORS)
    ∧ (∀ b ∈ ButtonManager.makeButton picks n [],
        b.textContent = toString (b.id + 1)) := by
  obtain ⟨h1, h2, h3', h4, h5⟩ := ButtonManager.makeButton_spec picks n h7
  exact ⟨h1, h2, h3', h4, fun b hb => (h5 b hb).1⟩

/-- Witness for C5 at `n = 3` with a concrete draw sequence. -/
theorem claim_C5_createButtons_witness :
    (ButtonManager.makeButton picks0 3 []).length = 3
    ∧ ((ButtonManager.makeButton picks0 3 []).map GameButton.color).Nodup :=
  ⟨(claim_C5_createButtons picks0 3 (by norm_num) (by norm_num)).1,
   (claim_C5_createButtons picks0 3 (by norm_num) (by norm_num)).2.2.1⟩

/-- **C6**: the validator accepts exactly the numbers in `[3, 7]`; it
fails with the WRONG_INPUT_TYPE message when its input is absent
(`parseInt` of an empty field is `NaN`), `null`, `undefined` or `NaN`, and
with the NOT_IN_RANGE message when the number is `< 3` or `> 7`; being a
total function of the embedding, it does not throw on failure. -/
theorem claim_C6_validator (v : JSVal) (m : String) :
    ((Validator.checkInput v m).1 = true ↔ ∃ k : ℤ, v = JSVal.num k ∧ 3 ≤ k ∧ k ≤ 7)
    ∧ ((v = JSVal.null ∨ v = JSVal.undef ∨ v = JSVal.nan) →
        (Validator.checkInput v m).2 = MESSAGES MsgKey.WRONG_INPUT_TYPE)
    ∧ (∀ k : ℤ, v = JSVal.num k → k < 3 ∨ 7 < k →
        (Validator.checkInput v m).2 = MESSAGES MsgKey.NOT_IN_RANGE)
    ∧ jsParseInt "" = JSVal.nan := by
  refine ⟨?_, ?_, ?_, by decide⟩
  · cases v with
    | null => simp [Validator.checkInput]
    | undef => simp [Validator.checkInput]
    | nan => simp [Validator.checkInput]
    | num k =>
      by_cases hk : k < 3 ∨ 7 < k
      · simp only [Validator.checkInput, if_pos hk]
        constructor
        · intro h; cases h
        · rintro ⟨k', hk', h3, h7⟩
          injection hk' with h
          omega
      · simp only [Validator.checkInput, if_neg hk]
        push_neg at hk
        exact ⟨fun _ => ⟨k, rfl, hk.1, hk.2⟩, fun _ => by trivial⟩
  · rintro (rfl | rfl | rfl) <;> rfl
  · rintro k rfl hk
    simp only [Validator.checkInput, if_pos hk]

/-- Witness for C6 at `NaN` and at the out-of-range number 10. -/
theorem claim_C6_validator_witness :
    (Validator.checkInput JSVal.nan "").2 = MESSAGES MsgKey.WRONG_INPUT_TYPE
    ∧ (Validator.checkInput (JSVal.num 10) "").2 = MESSAGES MsgKey.NOT_IN_RANGE :=
  ⟨(claim_C6_validator JSVal.nan "").2.1 (Or.inr (Or.inr rfl)),
   (claim_C6_validator (JSVal.num 10) "").2.2.1 10 rfl (by norm_num)⟩

/-- Transport a pointwise property along an equality of mapped views. -/
theorem forall_map_eq {α : Type} (f : GameButton → α) {bs bs' : List GameButton}
    (hmap : bs'.map f = bs.map f) {p : α → Prop} (h : ∀ b ∈ bs, p (f b)) :
    ∀ b ∈ bs', p (f b) := by
  intro b hb
  have hfb : f b ∈ bs.map f := by
    rw [← hmap]; exact List.mem_map_of_mem f hb
  obtain ⟨a, ha, hae⟩ := List.mem_map.mp hfb
  rw [← hae]
  exact h a ha

/-- `setLocation` only changes `pos`, so every `pos`-blind view of the
buttons is unchanged by a repositioning pass. -/
theorem map_setLocations {α : Type} (f : GameButton → α)
    (hf : ∀ b x y, f (GameButton.setLocation b x y) = f b)
    (env : ScrambleEnv) (i : Nat) :
    ∀ (j : Nat) (bs : List GameButton), (setLocations env i j bs).map f = bs.map f := by
  intro j bs
  induction bs generalizing j with
  | nil => rfl
  | cons b rest ih => simp [setLocations, hf, ih]

/-- The scramble loop only repositions buttons: every `pos`-blind view of
the buttons and every other field of the state is unchanged. -/
theorem scrambleLoop_spec {α : Type} (f : GameButton → α)
    (hf : ∀ b x y, f (GameButton.setLocation b x y) = f b) (env : ScrambleEnv) :
    ∀ (t i : Nat) (st : GameState),
      ((scrambleLoop env i t st).buttons).map f = st.buttons.map f
      ∧ (scrambleLoop env i t st).message = st.message
      ∧ (scrambleLoop env i t st).ogOrder = st.ogOrder
      ∧ (scrambleLoop env i t st).clickedOrder = st.clickedOrder
      ∧ (scrambleLoop env i t st).gameInProgress = st.gameInProgress := by
  intro t
  induction t with
  | zero => intro i st; exact ⟨rfl, rfl, rfl, rfl, rfl⟩
  | succ t ih =>
    intro i st
    simp only [scrambleLoop]
    obtain ⟨h1, h2, h3, h4, h5⟩ :=
      ih (i + 1) { st with buttons := setLocations env i 0 st.buttons }
    exact ⟨h1.trans (map_setLocations f hf env i 0 st.buttons), h2, h3, h4, h5⟩


/-- After scrambling and `memoryTest`, relative to the state `s` entering
the scramble loop: orders and `gameInProgress` are unchanged, the
GAME_STARTED message shows, ids are unchanged in order, and every
resulting button is some original button with one more click listener and
the same id and label. -/
theorem memoryTest_scramble_spec (env : ScrambleEnv) (t i : Nat) (s : GameState) :
    (GameManager.memoryTest (scrambleLoop env i t s)).ogOrder = s.ogOrder
    ∧ (GameManager.memoryTest (scrambleLoop env i t s)).clickedOrder = s.clickedOrder
    ∧ (GameManager.memoryTest (scrambleLoop env i t s)).message = MESSAGES MsgKey.GAME_STARTED
    ∧ (GameManager.memoryTest (scrambleLoop env i t s)).gameInProgress = s.gameInProgress
    ∧ (GameManager.memoryTest (scrambleLoop env i t s)).buttons.map GameButton.id
        = s.buttons.map GameButton.id
    ∧ (∀ b ∈ (GameManager.memoryTest (scrambleLoop env i t s)).buttons,
        ∃ a ∈ s.buttons, b.id = a.id ∧ b.textContent = a.textContent
          ∧ b.listeners = a.listeners + 1) := by
  have hid : ∀ b x y, GameButton.id (GameButton.setLocation b x y) = GameButton.id b :=
    fun _ _ _ => rfl
  have htup : ∀ (b : GameButton) (x y : ℚ),
      (fun b : GameButton => (b.id, b.textContent, b.listeners)) (GameButton.setLocation b x y)
        = (fun b : GameButton => (b.id, b.textContent, b.listeners)) b :=
    fun _ _ _ => rfl
  obtain ⟨sid, smsg, sog, sclk, sgip⟩ := scrambleLoop_spec GameButton.id hid env t i s
  obtain ⟨stup, _, _, _, _⟩ :=
    scrambleLoop_spec (fun b : GameButton => (b.id, b.textContent, b.listeners)) htup env t i s
  refine ⟨sog, sclk, rfl, sgip, ?_, ?_⟩
  · show ((scrambleLoop env i t s).buttons.map fun b =>
        { b with onclick := none, listeners := b.listeners + 1 }).map GameButton.id
      = s.buttons.map GameButton.id
    have hco : GameButton.id ∘ (fun b : GameButton =>
        { b with onclick := none, listeners := b.listeners + 1 }) = GameButton.id := rfl
    rw [List.map_map, hco]
    exact sid
  · intro b hb
    have hb' : b ∈ (scrambleLoop env i t s).buttons.map fun b =>
        { b with onclick := none, listeners := b.listeners + 1 } := hb
    obtain ⟨c, hc, hcb⟩ := List.mem_map.mp hb'
    have htupmem : (c.id, c.textContent, c.listeners) ∈
        s.buttons.map (fun b : GameButton => (b.id, b.textContent, b.listeners)) := by
      rw [← stup]
      exact List.mem_map_of_mem _ hc
    obtain ⟨a, ha, hae⟩ := List.mem_map.mp htupmem
    simp only [Prod.mk.injEq] at hae
    obtain ⟨he1, he2, he3⟩ := hae
    subst hcb
    exact ⟨a, ha, he1.symm, he2.symm, by show c.listeners + 1 = a.listeners + 1; rw [he3]⟩

/-- Components of the state after `playGame(n)` runs to completion:
`ogOrder` records the current button ids in array order, nothing is
clicked, the GAME_STARTED message shows, the ids are unchanged, every
number is hidden, and (starting from buttons with no handlers) every
button ends with exactly one click listener. -/
theorem playGame_spec (env : ScrambleEnv) (n : Nat) (st : GameState) :
    (GameManager.playGame env n st).ogOrder = st.buttons.map GameButton.id
    ∧ (GameManager.playGame env n st).clickedOrder = []
    ∧ (GameManager.playGame env n st).message = MESSAGES MsgKey.GAME_STARTED
    ∧ (GameManager.playGame env n st).gameInProgress = st.gameInProgress
    ∧ (GameManager.playGame env n st).buttons.map GameButton.id
        = st.buttons.map GameButton.id
    ∧ (∀ b ∈ (GameManager.playGame env n st).buttons, b.textContent = "")
    ∧ ((∀ b ∈ st.buttons, b.listeners = 0) →
        ∀ b ∈ (GameManager.playGame env n st).buttons, b.listeners = 1) := by
  obtain ⟨hog, hclk, hmsg, hgip, hids, hcorr⟩ :=
    memoryTest_scramble_spec env n 0
      { st with
        ogOrder := st.buttons.map GameButton.id, clickedOrder := [],
        buttons := st.buttons.map GameButton.hideNumber }
  have hco : GameButton.id ∘ GameButton.hideNumber = GameButton.id := rfl
  refine ⟨hog, hclk, hmsg, hgip, ?_, ?_, ?_⟩
  · refine hids.trans ?_
    show (st.buttons.map GameButton.hideNumber).map GameButton.id = st.buttons.map GameButton.id
    rw [List.map_map, hco]
  · intro b hb
    obtain ⟨a, ha, _, htext, _⟩ := hcorr b hb
    have ha' : a ∈ st.buttons.map GameButton.hideNumber := ha
    obtain ⟨c, _, hce⟩ := List.mem_map.mp ha'
    rw [htext, ← hce]
    rfl
  · intro h0 b hb
    obtain ⟨a, ha, _, _, hlen⟩ := hcorr b hb
    have ha' : a ∈ st.buttons.map GameButton.hideNumber := ha
    obtain ⟨c, hcmem, hce⟩ := List.mem_map.mp ha'
    have hc0 : c.listeners = 0 := h0 c hcmem
    rw [hlen, ← hce]
    show (GameButton.hideNumber c).listeners + 1 = 1
    rw [show (GameButton.hideNumber c).listeners = c.listeners from rfl, hc0]

/-- The round state at the start of the recall phase, begun from a state
with no buttons and a validated count `n ≤ 7`: the recall invariant with
nothing clicked yet, the GAME_STARTED message showing, and the game in
progress. -/
theorem startRound_spec (picks : Nat → Nat) (env : ScrambleEnv) (n : Nat) (st : GameState)
    (hst : st.buttons = []) (h7 : n ≤ 7) :
    RecallInv n 0 (GameManager.startRound picks env n st)
    ∧ (GameManager.startRound picks env n st).message = MESSAGES MsgKey.GAME_STARTED
    ∧ (GameManager.startRound picks env n st).gameInProgress = true := by
  obtain ⟨mlen, mids, mnodup, mmem, mfields⟩ := ButtonManager.makeButton_spec picks n h7
  obtain ⟨hog, hclk, hmsg, hgip, hids, htext, hlis⟩ :=
    playGame_spec env n
      { st with
        buttons := ButtonManager.makeButton picks n st.buttons,
        message := MESSAGES MsgKey.START, gameInProgress := true }
  have hmk : ButtonManager.makeButton picks n st.buttons = ButtonManager.makeButton picks n [] := by
    rw [hst]
  have hrange : (ButtonManager.makeButton picks n st.buttons).map GameButton.id
      = List.range n := by
    rw [hmk]; exact mids
  refine ⟨⟨hog.trans hrange, ?_, hids.trans hrange, ?_, ?_⟩, hmsg, hgip⟩
  · rw [List.range_zero]; exact hclk
  · exact hlis (by
      rw [hmk]
      intro b hb
      exact (mfields b hb).2.1)
  · intro b _ hb0
    exact absurd hb0 (Nat.not_lt_zero _)

/-- One correct click during recall: if `k < n` buttons have been clicked
so far and the user clicks the button with id `k`, `checkClick` runs once
(each button has exactly one listener), reveals that button, appends `k`
to `clickedOrder`, and displays the WIN message exactly when this was the
`n`-th correct click; otherwise the message is untouched. -/
theorem dispatchClick_correct (n k : Nat) (st : GameState) (hk : k < n)
    (hinv : RecallInv n k st) :
    RecallInv n (k + 1) (GameManager.dispatchClick st k)
    ∧ (GameManager.dispatchClick st k).message
        = (if k + 1 = n then MESSAGES MsgKey.WIN else st.message) := by
  obtain ⟨hog, hclk, hids, hlis, htext⟩ := hinv
  have hkmem : k ∈ st.buttons.map GameButton.id := by
    rw [hids]; exact List.mem_range.mpr hk
  have hfind : ∃ b, st.buttons.find? (fun b => b.id = k) = some b := by
    rcases hfx : st.buttons.find? (fun b => b.id = k) with _ | b
    · exfalso
      obtain ⟨a, ha, hae⟩ := List.mem_map.mp hkmem
      have := List.find?_eq_none.mp hfx a ha
      simp [hae] at this
    · exact ⟨b, hfx⟩
  obtain ⟨b, hb⟩ := hfind
  have hbl : b.listeners = 1 := hlis b (List.mem_of_find?_eq_some hb)
  have hdisp : GameManager.dispatchClick st k = GameManager.checkClick st k := by
    unfold GameManager.dispatchClick
    rw [hb]
    show applyN (fun s => GameManager.checkClick s k) b.listeners st
      = GameManager.checkClick st k
    rw [hbl]
    rfl
  have hexp : st.ogOrder.get? st.clickedOrder.length = some k := by
    rw [hog, hclk, List.length_range, List.get?_eq_getElem?, List.getElem?_range hk]
  have hcond : some k = st.ogOrder.get? st.clickedOrder.length := hexp.symm
  rw [hdisp]
  unfold GameManager.checkClick
  rw [if_pos hcond]
  have hlen1 : (st.clickedOrder ++ [k]).length = k + 1 := by
    simp [hclk]
  have hgoal : ∀ (s : GameState),
      s.ogOrder = List.range n → s.clickedOrder = List.range (k + 1) →
      s.buttons = (st.buttons.map fun b => if b.id = k then b.showNumber else b) →
      RecallInv n (k + 1) s := by
    intro s hsog hsclk hsb
    refine ⟨hsog, hsclk, ?_, ?_, ?_⟩
    · rw [hsb, List.map_map]
      have hco : (GameButton.id ∘ fun b : GameButton =>
          if b.id = k then b.showNumber else b) = GameButton.id := by
        funext b
        by_cases hbk : b.id = k <;> simp [hbk, GameButton.showNumber, Function.comp]
      rw [hco]
      exact hids
    · rw [hsb]
      intro b' hb'
      obtain ⟨a, ha, hae⟩ := List.mem_map.mp hb'
      have hal : a.listeners = 1 := hlis a ha
      rw [← hae]
      by_cases hak : a.id = k <;> simp [hak, GameButton.showNumber, hal]
    · rw [hsb]
      intro b' hb' hb'k
      obtain ⟨a, ha, hae⟩ := List.mem_map.mp hb'
      by_cases hak : a.id = k
      · rw [← hae]
        simp [hak, GameButton.showNumber]
      · rw [← hae] at hb'k ⊢
        simp only [if_neg hak] at hb'k ⊢
        have hak' : a.id < k := by omega
        exact htext a ha hak'
  by_cases hwin : k + 1 = n
  · rw [if_pos (by simp [hlen1, hog, List.length_range, hwin]), if_pos hwin]
    refine ⟨hgoal _ hog ?_ rfl, rfl⟩
    rw [hclk, ← List.range_succ]
  · rw [if_neg (by simp [hlen1, hog, List.length_range, hwin]), if_neg hwin]
    refine ⟨hgoal _ hog ?_ rfl, rfl⟩
    rw [hclk, ← List.range_succ]

/-- Clicking the remaining ids `k, ..., n-1` in order from an invariant
recall state completes the round, ending with the WIN message (when at
least one click was left to make). -/
theorem clickSeq_correct (n : Nat) :
    ∀ (m k : Nat) (st : GameState), k + m = n → RecallInv n k st →
      RecallInv n n (GameManager.clickSeq (List.range' k m) st)
      ∧ (GameManager.clickSeq (List.range' k m) st).message
          = (if m = 0 then st.message else MESSAGES MsgKey.WIN) := by
  intro m
  induction m with
  | zero =>
    intro k st hkm hinv
    have hkn : k = n := by omega
    subst hkn
    exact ⟨hinv, rfl⟩
  | succ m ih =>
    intro k st hkm hinv
    have hk : k < n := by omega
    obtain ⟨hstep, hmsg⟩ := dispatchClick_correct n k st hk hinv
    have hrw : List.range' k (m + 1) = k :: List.range' (k + 1) m := List.range'_succ k m 1
    rw [hrw]
    obtain ⟨ih1, ih2⟩ := ih (k + 1) (GameManager.dispatchClick st k) (by omega) hstep
    refine ⟨ih1, ?_⟩
    rw [if_neg (Nat.succ_ne_zero m)]
    have h2 : (GameManager.clickSeq (List.range' (k + 1) m)
        (GameManager.dispatchClick st k)).message
        = (if m = 0 then (GameManager.dispatchClick st k).message
            else MESSAGES MsgKey.WIN) := ih2
    rcases Nat.eq_zero_or_pos m with hm0 | hmpos
    · subst hm0
      rw [if_pos rfl, hmsg, if_pos (by omega)] at h2
      exact h2
    · rw [if_neg (by omega)] at h2
      exact h2

/-- **C2**: in a round of `n` buttons at recall (begun from a state with
no buttons via a validated input `n`), clicking the buttons in exactly
the order `originalOrder` reveals each clicked button's number, appends
each id so that `clickedOrder` ends equal to `originalOrder`, and on the
`n`-th correct click the WIN message is displayed — the observable for
the WON state (the source keeps no separate phase variable). -/
theorem claim_C2_win_path (picks : Nat → Nat) (env : ScrambleEnv) (n : Nat) (st : GameState)
    (h3 : 3 ≤ n) (h7 : n ≤ 7) (hst : st.buttons = []) :
    (GameManager.startRound picks env n st).ogOrder = List.range n
    ∧ (GameManager.clickSeq (GameManager.startRound picks env n st).ogOrder
        (GameManager.startRound picks env n st)).clickedOrder
      = (GameManager.startRound picks env n st).ogOrder
    ∧ (GameManager.clickSeq (GameManager.startRound picks env n st).ogOrder
        (GameManager.startRound picks env n st)).message = MESSAGES MsgKey.WIN
    ∧ (∀ b ∈ (GameManager.clickSeq (GameManager.startRound picks env n st).ogOrder
        (GameManager.startRound picks env n st)).buttons,
        b.textContent = toString (b.id + 1)) := by
  obtain ⟨hinv, hmsg0, _⟩ := startRound_spec picks env n st hst h7
  have hog : (GameManager.startRound picks env n st).ogOrder = List.range n := hinv.1
  obtain ⟨hfin, hfmsg⟩ :=
    clickSeq_correct n n 0 (GameManager.startRound picks env n st) (by omega) hinv
  have hr : List.range' 0 n = List.range n := (List.range_eq_range' n).symm
  rw [hr] at hfin hfmsg
  obtain ⟨fog, fclk, fids, flis, ftext⟩ := hfin
  rw [hog]
  refine ⟨rfl, fclk, ?_, ?_⟩
  · rw [hfmsg, if_neg (by omega)]
  · intro b hb
    have hidmem : b.id ∈ List.range n := by
      rw [← fids]; exact List.mem_map_of_mem _ hb
    exact ftext b hb (List.mem_range.mp hidmem)

/-- Witness for C2: the full winning round at `n = 3` in a concrete
environment. -/
theorem claim_C2_win_path_witness :
    (GameManager.clickSeq (GameManager.startRound picks0 env0 3 GameState.initial).ogOrder
        (GameManager.startRound picks0 env0 3 GameState.initial)).message
      = MESSAGES MsgKey.WIN :=
  (claim_C2_win_path picks0 env0 3 GameState.initial (by norm_num) (by norm_num) rfl).2.2.1

/-- **C1** (code bug evidence): in a recall round of 3 buttons, the first
mismatched click (id 1 while id 0 is expected) displays the LOSE message,
reveals every number and records nothing — but every button still has its
`addEventListener` click handler (the source's `onclick = null` does not
detach it, contrary to its own comment), and the subsequent click on id 0
is recorded into `clickedOrder`. -/
theorem claim_C1_lost_not_terminal :
    (GameManager.clickSeq [1] (GameManager.startRound picks0 env0 3 GameState.initial)).message
      = MESSAGES MsgKey.LOSE
    ∧ (GameManager.clickSeq [1]
        (GameManager.startRound picks0 env0 3 GameState.initial)).clickedOrder = []
    ∧ (∀ b ∈ (GameManager.clickSeq [1]
        (GameManager.startRound picks0 env0 3 GameState.initial)).buttons,
        b.textContent = toString (b.id + 1) ∧ b.listeners = 1)
    ∧ (GameManager.clickSeq [1, 0]
        (GameManager.startRound picks0 env0 3 GameState.initial)).clickedOrder = [0] := by
  decide

/-- **C3** (code bug evidence): after a won round of 3 buttons (WIN
message showing), a further click on id 0 finds
`expected = ogOrder[3] = undefined`, takes the mismatch branch, and
replaces the WIN message with the LOSE message — WON is not terminal. -/
theorem claim_C3_won_not_terminal :
    (GameManager.clickSeq [0, 1, 2]
        (GameManager.startRound picks0 env0 3 GameState.initial)).message
      = MESSAGES MsgKey.WIN
    ∧ (GameManager.clickSeq [0, 1, 2, 0]
        (GameManager.startRound picks0 env0 3 GameState.initial)).message
      = MESSAGES MsgKey.LOSE := by
  decide

/-- **C7** (code bug evidence): in a round of 3 buttons, a first
mismatched click (id 2) displays LOSE, yet the following clicks
0, 1, 2 are all still recorded — `clickedOrder` ends `[0, 1, 2]` and the
WIN message is even displayed, because the click handlers were never
removed. -/
theorem claim_C7_clicks_after_mismatch :
    (GameManager.clickSeq [2]
        (GameManager.startRound picks0 env0 3 GameState.initial)).message
      = MESSAGES MsgKey.LOSE
    ∧ (GameManager.clickSeq [2, 0, 1, 2]
        (GameManager.startRound picks0 env0 3 GameState.initial)).clickedOrder = [0, 1, 2]
    ∧ (GameManager.clickSeq [2, 0, 1, 2]
        (GameManager.startRound picks0 env0 3 GameState.initial)).message
      = MESSAGES MsgKey.WIN := by
  decide

/-- **C4** counterexample: submitting the non-numeric input `"abc"` while
a round is in progress does **not** leave the game state unchanged — the
previous round's buttons are cleared and `gameInProgress` is reset before
validation ever runs. -/
theorem claim_C4_counterexample :
    (GameManager.initGame picks0 env0 "3" GameState.initial).gameInProgress = true
    ∧ (GameManager.initGame picks0 env0 "3" GameState.initial).buttons.length = 3
    ∧ (GameManager.initGame picks0 env0 "abc"
        (GameManager.initGame picks0 env0 "3" GameState.initial)).buttons = []
    ∧ (GameManager.initGame picks0 env0 "abc"
        (GameManager.initGame picks0 env0 "3" GameState.initial)).gameInProgress = false
    ∧ (GameManager.initGame picks0 env0 "abc"
        (GameManager.initGame picks0 env0 "3" GameState.initial)).message
      = MESSAGES MsgKey.WRONG_INPUT_TYPE := by
  decide

/-- **C4** (amended): submitting an input whose parsed value is missing,
non-numeric or outside `[3, 7]` displays the corresponding message,
creates no buttons and starts no round; when no round is in progress the
rest of the state is untouched, but when a round was in progress the
prior round's state has already been cleared (buttons removed, orders
emptied, message cleared, `gameInProgress` reset) before validation, so
in that case the state does change. -/
theorem claim_C4_invalid_input (picks : Nat → Nat) (env : ScrambleEnv) (s : String)
    (st : GameState)
    (hbad : ∀ k : ℤ, jsParseInt (jsTrim s) = JSVal.num k → k < 3 ∨ 7 < k) :
    GameManager.initGame picks env s st
      = (if st.gameInProgress then
          { st with
            buttons := [],
            message := (Validator.checkInput (jsParseInt (jsTrim s)) "").2,
            ogOrder := [], clickedOrder := [], gameInProgress := false }
        else
          { st with message := (Validator.checkInput (jsParseInt (jsTrim s)) st.message).2 })
    ∧ (jsParseInt (jsTrim s) = JSVal.nan →
        (GameManager.initGame picks env s st).message = MESSAGES MsgKey.WRONG_INPUT_TYPE)
    ∧ (∀ k : ℤ, jsParseInt (jsTrim s) = JSVal.num k →
        (GameManager.initGame picks env s st).message = MESSAGES MsgKey.NOT_IN_RANGE) := by
  have hfalse : ∀ m : String, (Validator.checkInput (jsParseInt (jsTrim s)) m).1 = false := by
    intro m
    rcases hv : jsParseInt (jsTrim s) with _ | _ | _ | k
    · rfl
    · rfl
    · rfl
    · have hk : k < 3 ∨ 7 < k := hbad k hv
      simp [Validator.checkInput, if_pos hk]
  have hmain : GameManager.initGame picks env s st
      = (if st.gameInProgress then
          { st with
            buttons := [],
            message := (Validator.checkInput (jsParseInt (jsTrim s)) "").2,
            ogOrder := [], clickedOrder := [], gameInProgress := false }
        else
          { st with message := (Validator.checkInput (jsParseInt (jsTrim s)) st.message).2 }) := by
    simp only [GameManager.initGame, hfalse, Bool.false_eq_true, if_false]
    by_cases hip : st.gameInProgress
    · rw [if_pos hip, if_pos hip]
    · rw [if_neg hip, if_neg hip]
  refine ⟨hmain, ?_, ?_⟩
  · intro hnan
    rw [hmain, hnan]
    by_cases hip : st.gameInProgress
    · rw [if_pos hip]; rfl
    · rw [if_neg hip]; rfl
  · intro k hk
    have hrange : k < 3 ∨ 7 < k := hbad k hk
    rw [hmain, hk]
    by_cases hip : st.gameInProgress
    · rw [if_pos hip]
      show (Validator.checkInput (JSVal.num k) "").2 = MESSAGES MsgKey.NOT_IN_RANGE
      simp [Validator.checkInput, if_pos hrange]
    · rw [if_neg hip]
      show (Validator.checkInput (JSVal.num k) st.message).2 = MESSAGES MsgKey.NOT_IN_RANGE
      simp [Validator.checkInput, if_pos hrange]

/-- Witness for the amended C4: an invalid submission from the idle
initial state only changes the message. -/
theorem claim_C4_invalid_input_witness :
    GameManager.initGame picks0 env0 "abc" GameState.initial
      = { GameState.initial with message := MESSAGES MsgKey.WRONG_INPUT_TYPE } := by
  have hbad : ∀ k : ℤ, jsParseInt (jsTrim "abc") = JSVal.num k → k < 3 ∨ 7 < k := by
    intro k hk
    rw [show jsParseInt (jsTrim "abc") = JSVal.nan from by decide] at hk
    exact JSVal.noConfusion hk
  have h := (claim_C4_invalid_input picks0 env0 "abc" GameState.initial hbad).1
  rw [h]
  decide

/-- **C10**: the raw input is trimmed and passed through `parseInt` before
validation, so any string whose leading numeric prefix has integer part
`k` in `[3, 7]` (for example `"3abc"` or `"7.9"`) is accepted and starts
a round with `k` buttons, even though the string itself is not an integer
in `[3, 7]`.  (`hclean` is the reachability invariant: whenever no game is
in progress the button array is empty.) -/
theorem claim_C10_parseInt_prefix (picks : Nat → Nat) (env : ScrambleEnv) (s : String)
    (k : ℤ) (st : GameState) (hparse : jsParseInt (jsTrim s) = JSVal.num k)
    (h3 : 3 ≤ k) (h7 : k ≤ 7) (hclean : st.gameInProgress = true ∨ st.buttons = []) :
    (GameManager.initGame picks env s st).gameInProgress = true
    ∧ (GameManager.initGame picks env s st).buttons.length = k.toNat
    ∧ (GameManager.initGame picks env s st).ogOrder = List.range k.toNat
    ∧ (GameManager.initGame picks env s st).message = MESSAGES MsgKey.GAME_STARTED := by
  have hk : ¬(k < 3 ∨ 7 < k) := by omega
  have hok : ∀ m : String, Validator.checkInput (JSVal.num k) m = (true, m) := fun m => by
    simp only [Validator.checkInput, if_neg hk]
  have h7' : k.toNat ≤ 7 := by omega
  have hun : GameManager.initGame picks env s st
      = GameManager.startRound picks env k.toNat
          (if st.gameInProgress then
            { st with
              buttons := [], message := "", ogOrder := [], clickedOrder := [],
              gameInProgress := false }
          else st) := by
    simp only [GameManager.initGame, hparse, hok]
    rfl
  rw [hun]
  by_cases hip : st.gameInProgress
  · rw [if_pos hip]
    obtain ⟨hinv, hmsg, hgip⟩ := startRound_spec picks env k.toNat
      { st with
        buttons := [], message := "", ogOrder := [], clickedOrder := [],
        gameInProgress := false } rfl h7'
    refine ⟨hgip, ?_, hinv.1, hmsg⟩
    have := congrArg List.length hinv.2.2.1
    rwa [List.length_map, List.length_range] at this
  · rw [if_neg hip]
    have hb : st.buttons = [] := hclean.resolve_left (by simpa using hip)
    obtain ⟨hinv, hmsg, hgip⟩ := startRound_spec picks env k.toNat st hb h7'
    refine ⟨hgip, ?_, hinv.1, hmsg⟩
    have := congrArg List.length hinv.2.2.1
    rwa [List.length_map, List.length_range] at this

/-- Witness for C10: the string `"3abc"` starts a round of 3 buttons. -/
theorem claim_C10_parseInt_prefix_witness :
    (GameManager.initGame picks0 env0 "3abc" GameState.initial).gameInProgress = true
    ∧ (GameManager.initGame picks0 env0 "3abc" GameState.initial).buttons.length = 3 := by
  have h := claim_C10_parseInt_prefix picks0 env0 "3abc" 3 GameState.initial (by decide)
    (by norm_num) (by norm_num) (Or.inr rfl)
  exact ⟨h.1, h.2.1⟩

/-- A repositioning pass contributes no 2-second pause events. -/
theorem countP_setLocationEvents (env : ScrambleEnv) (i : Nat) :
    ∀ (j : Nat) (bs : List GameButton),
      List.countP Event.isScramblePause (setLocationEvents env i j bs) = 0 := by
  intro j bs
  induction bs generalizing j with
  | nil => rfl
  | cons b rest ih =>
    simp [setLocationEvents, List.countP_cons, Event.isScramblePause, ih]

/-- The hide-numbers pass contributes no 2-second pause events. -/
theorem countP_hideNumberEvents (bs : List GameButton) :
    List.countP Event.isScramblePause (hideNumberEvents bs) = 0 := by
  induction bs with
  | nil => rfl
  | cons b rest ih =>
    simp only [hideNumberEvents, List.map_cons, List.countP_cons] at ih ⊢
    simp [Event.isScramblePause, ih]

/-- The scramble loop emits exactly one 2-second pause per iteration. -/
theorem countP_scrambleTraceLoop (env : ScrambleEnv) (bs : List GameButton) :
    ∀ (t i : Nat), List.countP Event.isScramblePause (scrambleTraceLoop env bs i t) = t := by
  intro t
  induction t with
  | zero => intro i; rfl
  | succ t ih =>
    intro i
    simp [scrambleTraceLoop, List.countP_append, List.countP_cons,
      countP_setLocationEvents, Event.isScramblePause, ih]

/-- A repositioning pass never attaches handlers. -/
theorem attach_not_mem_setLocationEvents (env : ScrambleEnv) (i : Nat) :
    ∀ (j : Nat) (bs : List GameButton),
      Event.attachHandlers ∉ setLocationEvents env i j bs := by
  intro j bs
  induction bs generalizing j with
  | nil => simp [setLocationEvents]
  | cons b rest ih => simp [setLocationEvents, ih]

/-- The scramble loop never attaches handlers. -/
theorem attach_not_mem_scrambleTraceLoop (env : ScrambleEnv) (bs : List GameButton) :
    ∀ (t i : Nat), Event.attachHandlers ∉ scrambleTraceLoop env bs i t := by
  intro t
  induction t with
  | zero => intro i; simp [scrambleTraceLoop]
  | succ t ih => intro i; simp [scrambleTraceLoop, attach_not_mem_setLocationEvents, ih]

/-- The scramble loop is the concatenation of its per-iteration blocks:
reposition every button, then pause 2000 ms. -/
theorem scrambleTraceLoop_blocks (env : ScrambleEnv) (bs : List GameButton) :
    ∀ (t i : Nat), scrambleTraceLoop env bs i t
      = (List.range' i t).flatMap
          (fun r => setLocationEvents env r 0 bs ++ [Event.pauseMs 2000]) := by
  intro t
  induction t with
  | zero => intro i; rfl
  | succ t ih =>
    intro i
    rw [List.range'_succ, List.flatMap_cons, ← ih (i + 1)]
    simp [scrambleTraceLoop]

/-- **C8**: for a round with input `n` (so `3 ≤ n ≤ 7`), the trace of
`playGame(n)` shows the repositioning loop executing exactly `n` times —
each iteration repositions every button and then pauses a fixed
2000 ms — and the recall click handlers are attached only after the whole
scramble segment (they are the final event, absent from everything before
the GAME_STARTED message). -/
theorem claim_C8_scramble_contract (env : ScrambleEnv) (n : Nat) (st : GameState)
    (h3 : 3 ≤ n) (_h7 : n ≤ 7) :
    GameManager.playGameTrace env n st
      = Event.pauseMs (n * 1000) ::
          hideNumberEvents st.buttons ++
            ((List.range n).flatMap
              (fun i => setLocationEvents env i 0 st.buttons ++ [Event.pauseMs 2000]) ++
              [Event.showMessage (MESSAGES MsgKey.GAME_STARTED), Event.attachHandlers])
    ∧ List.countP Event.isScramblePause (GameManager.playGameTrace env n st) = n
    ∧ Event.attachHandlers ∉
        Event.pauseMs (n * 1000) ::
          (hideNumberEvents st.buttons ++ scrambleTraceLoop env st.buttons 0 n) := by
  have hne : n * 1000 ≠ 2000 := by omega
  refine ⟨?_, ?_, ?_⟩
  · simp only [GameManager.playGameTrace]
    rw [scrambleTraceLoop_blocks env st.buttons n 0, List.range_eq_range' n]
    simp [List.append_assoc, List.cons_append]
  · simp only [GameManager.playGameTrace, List.countP_cons, List.countP_append,
      countP_hideNumberEvents, countP_scrambleTraceLoop]
    simp [Event.isScramblePause, hne]
  · intro hmem
    rcases List.mem_cons.mp hmem with h | h
    · exact Event.noConfusion h
    · rcases List.mem_append.mp h with h' | h'
      · obtain ⟨b, _, hbe⟩ := List.mem_map.mp h'
        exact Event.noConfusion hbe
      · exact attach_not_mem_scrambleTraceLoop env st.buttons n 0 h'

/-- Witness for C8: the trace of a 3-button round contains exactly three
2-second scramble pauses. -/
theorem claim_C8_scramble_contract_witness :
    List.countP Event.isScramblePause (GameManager.playGameTrace env0 3 GameState.initial) = 3 :=
  (claim_C8_scramble_contract env0 3 GameState.initial (by norm_num) (by norm_num)).2.1

/-- **C9** counterexample: with a 100x100 viewport, 160x80 buttons and
margin 10, the x-axis bound `maxX = innerWidth - btnWidth - margin` lies
below the margin; the coordinate the scramble pass assigns to the single
button (random draw 1/2) is x = -30, outside the claimed closed interval
`[margin, innerWidth - btnWidth - margin]` — indeed below the margin. -/
theorem claim_C9_counterexample :
    ((GameManager.scrambleButtons envTiny 1
        { GameState.initial with buttons := [GameButton.make 0 "red"] }).buttons.map
      GameButton.pos) = [some (-30, 10)]
    ∧ ¬ (STYLE_CONFIG_EDGE_MARGIN ≤ (-30 : ℚ)) := by
  constructor
  · show [some ((scrambleCoords envTiny 0 0).1, (scrambleCoords envTiny 0 0).2)]
      = [some (-30, 10)]
    have h1 : (scrambleCoords envTiny 0 0).1 = -30 := by
      norm_num [scrambleCoords, envTiny, STYLE_CONFIG_EDGE_MARGIN]
    have h2 : (scrambleCoords envTiny 0 0).2 = 10 := by
      norm_num [scrambleCoords, envTiny, STYLE_CONFIG_EDGE_MARGIN]
    rw [h1, h2]
  · norm_num [STYLE_CONFIG_EDGE_MARGIN]

/-- **C9** (amended): every coordinate computed during a scramble
iteration lies in the closed interval
`[margin, viewport_dimension - button_dimension - margin]` for its axis,
provided each `Math.random()` draw lies in `[0, 1)` (which holds for the
real generator) and the viewport is at least the rendered button size
plus twice the margin on each axis; for smaller viewports the computed
coordinate falls outside the interval. -/
theorem claim_C9_coords_in_range (env : ScrambleEnv) (i j : Nat)
    (hx0 : 0 ≤ env.randX i j) (hx1 : env.randX i j < 1)
    (hy0 : 0 ≤ env.randY i j) (hy1 : env.randY i j < 1)
    (hw : env.btnWidth + 2 * STYLE_CONFIG_EDGE_MARGIN ≤ env.innerWidth)
    (hh : env.btnHeight + 2 * STYLE_CONFIG_EDGE_MARGIN ≤ env.innerHeight) :
    STYLE_CONFIG_EDGE_MARGIN ≤ (scrambleCoords env i j).1
    ∧ (scrambleCoords env i j).1 ≤ env.innerWidth - env.btnWidth - STYLE_CONFIG_EDGE_MARGIN
    ∧ STYLE_CONFIG_EDGE_MARGIN ≤ (scrambleCoords env i j).2
    ∧ (scrambleCoords env i j).2
        ≤ env.innerHeight - env.btnHeight - STYLE_CONFIG_EDGE_MARGIN := by
  have hdx : (0 : ℚ) ≤ env.innerWidth - env.btnWidth - STYLE_CONFIG_EDGE_MARGIN
      - STYLE_CONFIG_EDGE_MARGIN := by linarith
  have hdy : (0 : ℚ) ≤ env.innerHeight - env.btnHeight - STYLE_CONFIG_EDGE_MARGIN
      - STYLE_CONFIG_EDGE_MARGIN := by linarith
  have hx2 : (0 : ℚ) ≤ 1 - env.randX i j := by linarith
  have hy2 : (0 : ℚ) ≤ 1 - env.randY i j := by linarith
  simp only [scrambleCoords]
  refine ⟨?_, ?_, ?_, ?_⟩
  · nlinarith [mul_nonneg hx0 hdx]
  · nlinarith [mul_nonneg hx2 hdx]
  · nlinarith [mul_nonneg hy0 hdy]
  · nlinarith [mul_nonneg hy2 hdy]

/-- Witness for the amended C9: in the 1000x800 environment the first
x-coordinate lies between the margin and `maxX`. -/
theorem claim_C9_coords_in_range_witness :
    STYLE_CONFIG_EDGE_MARGIN ≤ (scrambleCoords env0 0 0).1
    ∧ (scrambleCoords env0 0 0).1
        ≤ env0.innerWidth - env0.btnWidth - STYLE_CONFIG_EDGE_MARGIN := by
  have h := claim_C9_coords_in_range env0 0 0
    (by norm_num [env0]) (by norm_num [env0]) (by norm_num [env0]) (by norm_num [env0])
    (by norm_num [env0, STYLE_CONFIG_EDGE_MARGIN])
    (by norm_num [env0, STYLE_CONFIG_EDGE_MARGIN])
  exact ⟨h.1, h.2.1⟩
